import Mathlib

/-!
Verification development for the fast_fm file-manager core
(rplugin/python3/fast_fm/commands.py and the modules it imports).

Paths are the canonical absolute path strings the source manipulates via
os.path; here a path is embedded as its list of segments from the
filesystem root, with [] standing for the root "/".  On canonical
absolute paths, os.path.dirname drops the last segment, os.path.basename
is the last segment, and os.path.join appends relative segments — these
are the only os.path operations the commands use on data paths.
-/

namespace FastFM

/-- A canonical absolute filesystem path, as its list of segments; [] is
the filesystem root. -/
abbrev FsPath := List String

/-- Embedding of os.path.dirname on a canonical absolute path: drop the
last segment. -/
def dirname (p : FsPath) : FsPath := p.dropLast

/-- Embedding of os.path.basename on a canonical absolute path: the last
segment (empty for the root). -/
def basename : FsPath → String
  | [] => ""
  | a :: p => (a :: p).getLast (by simp)

/-- Embedding of os.path.join of a directory with a relative name of one
or more segments. -/
def join (p : FsPath) (child : List String) : FsPath := p ++ child

/-- Boolean segment-list test: the first path is an ancestor-or-equal of
the second. -/
def leads : FsPath → FsPath → Bool
  | [], _ => true
  | _, [] => false
  | a :: p, b :: q => a == b && leads p q

/-- Sanity characterisation of leads: it holds exactly when the second
path extends the first. -/
theorem leads_iff : ∀ p q : FsPath, leads p q = true ↔ ∃ t, q = p ++ t := by
  intro p
  induction p with
  | nil => intro q; simp [leads]
  | cons a p ih =>
    intro q
    cases q with
    | nil => simp [leads]
    | cons b q =>
      simp only [leads, Bool.and_eq_true, beq_iff_eq, ih, List.cons_append,
        List.cons.injEq]
      constructor
      · rintro ⟨rfl, t, rfl⟩; exact ⟨t, rfl, rfl⟩
      · rintro ⟨t, rfl, rfl⟩; exact ⟨rfl, t, rfl⟩

/-- Modelled from the spec: fs.is_parent (fs.py is not under src/) — true
iff child is a strict descendant of parent, by path-segment comparison
only. -/
def is_parent (parent child : FsPath) : Bool :=
  leads parent child && !(parent == child)

/-- A path is never a strict descendant of itself. -/
theorem is_parent_irrefl (p : FsPath) : is_parent p p = false := by
  simp [is_parent]

/-- Modelled from the spec: fs.ancestors (fs.py is not under src/) — the
ancestor paths of p, from the immediate parent up to the filesystem
root. -/
def ancestors (p : FsPath) : List FsPath :=
  (List.range p.length).reverse.map fun k => p.take k

/-- Membership in ancestors: exactly the proper initial segments. -/
theorem mem_ancestors (p q : FsPath) :
    q ∈ ancestors p ↔ ∃ k, k < p.length ∧ q = p.take k := by
  simp only [ancestors, List.mem_map, List.mem_reverse, List.mem_range]
  constructor
  · rintro ⟨k, hk, rfl⟩; exact ⟨k, hk, rfl⟩
  · rintro ⟨k, hk, rfl⟩; exact ⟨k, hk, rfl⟩

/-- The base directory is an ancestor of any path properly inside it. -/
theorem self_mem_ancestors_join (p : FsPath) (child : List String)
    (h : child ≠ []) : p ∈ ancestors (join p child) := by
  rw [mem_ancestors]
  refine ⟨p.length, ?_, ?_⟩
  · simp only [join, List.length_append]
    have : 0 < child.length := List.length_pos.mpr h
    omega
  · simp [join]

/-- Node mode flags, from fast_fm/types.py (Mode); the commands only test
membership of FOLDER. -/
inductive Mode where
  | file
  | folder
  | symlink
  | executable
  deriving DecidableEq

/-- A tree node: its absolute path and its mode flag set, from
fast_fm/types.py (Node). Children are irrelevant to the commands verified
here. -/
structure Node where
  path : FsPath
  mode : List Mode
  deriving DecidableEq

/-- Modelled from the spec: state.is_dir (state.py is not under src/) — a
node is a directory iff FOLDER is among its mode flags. -/
def is_dir (n : Node) : Bool := Mode.folder ∈ n.mode

/-- One immutable Tree State snapshot, from fast_fm/types.py (State):
the displayed root path, the expansion set (called index in the source),
the selection, the display flags, and the derived flat row-to-node
index. The selection is a set in the source; it is embedded with its
iteration order as a duplicate-free list. -/
structure State where
  root : FsPath
  index : Finset FsPath
  selection : List FsPath
  show_hidden : Bool
  follow : Bool
  lookup : List Node
  deriving DecidableEq

/-- Modelled from the spec: state.index row lookup (state.py is not under
src/) — the Node at the zero-based row of the derived flat index, or none
when the row is out of range (never an error). -/
def index (state : State) (row : Int) : Option Node :=
  if row < 0 then none else state.lookup[row.toNat]?

/-- Embedding of commands._index: resolve the one-based cursor row to the
node under the cursor. -/
def _index (state : State) (cursorRow : Int) : Option Node :=
  index state (cursorRow - 1)

/-- Python range(a, b) over integers. -/
def pyRange (a b : Int) : List Int :=
  (List.range (b - a).toNat).map fun i : Nat => a + (i : Int)

/-- Embedding of commands._indices: in visual mode, iterate the rows of
the mark interval and yield every row that resolves to a node, silently
skipping the rest; otherwise resolve only the cursor row. r1 and r2 are
the one-based mark rows, row the one-based cursor row. -/
def _indices (state : State) (is_visual : Bool) (r1 r2 row : Int) :
    List Node :=
  if is_visual then
    (pyRange (r1 - 1) r2).filterMap fun r => index state r
  else
    match index state (row - 1) with
    | some n => [n]
    | none => []

/-- The keyword arguments of one call to state.forward, recording which
of them the caller supplied: the new expansion set, the invalidation set,
the new selection, and the display flags. -/
structure FwdArgs where
  indexArg : Option (Finset FsPath)
  pathsArg : Option (Finset FsPath)
  selectionArg : Option (List FsPath)
  showHiddenArg : Option Bool
  followArg : Option Bool
  deriving DecidableEq

/-- Modelled from the spec: state.forward, the advance transition
(state.py is not under src/) — every omitted keyword retains the value of
the previous snapshot; pathsArg is the invalidation set handed to the
Node Cache refresh, whose disk-dependent rebuild of the derived flat
index is supplied by the caller as rebuilt. Returns a new snapshot, never
mutating the input. -/
def forward (s : State) (a : FwdArgs) (rebuilt : List Node) : State :=
  { root := s.root
    index := a.indexArg.getD s.index
    selection := a.selectionArg.getD s.selection
    show_hidden := a.showHiddenArg.getD s.show_hidden
    follow := a.followArg.getD s.follow
    lookup := rebuilt }

/-- A Python exception raised by a filesystem primitive. -/
inductive PyErr where
  | ioError
  deriving DecidableEq

/-- Run the pair actions of a batch in order, stopping at the first one
that raises; returns the pairs that completed and the in-flight
exception, if any. -/
def runActions (act : FsPath → FsPath → Option PyErr) :
    List (FsPath × FsPath) → List (FsPath × FsPath) × Option PyErr
  | [] => ([], none)
  | p :: rest =>
    match act p.1 p.2 with
    | some e => ([], some e)
    | none =>
      let r := runActions act rest
      (p :: r.1, r.2)

/-- Python semantics of a try block whose finally block ends in a return
statement: the return executed inside finally discards any in-flight
exception from the try block, so the function returns normally and
nothing escapes. The first component is the exception escaping to the
caller (always none), the second the returned value. -/
def pyReturnInFinally {α : Type} (_inFlight : Option PyErr) (r : α) :
    Option PyErr × α :=
  (none, r)

/-- Embedding of commands._find_dest: reparent the source under the
target node (inside it when the node is a directory, next to it
otherwise). -/
def _find_dest (src : FsPath) (node : Node) : FsPath :=
  join (if is_dir node then node.path else dirname node.path) [basename src]

/-- Everything observable about one call of commands._operation: the
returned state, the arguments of the forward call when one was made, the
pair actions that ran to completion, the exception escaping to the
caller, the colliding pairs shown in the conflict error message, whether
the nothing-selected warning was printed, and the paths handed to
kill_buffers. -/
structure OpEffects where
  state : State
  fwdCall : Option FwdArgs
  completed : List (FsPath × FsPath)
  raised : Option PyErr
  conflictsShown : List (FsPath × FsPath)
  noSelWarning : Bool
  killed : List FsPath
  deriving DecidableEq

/-- Embedding of commands._operation, the shared body of c_cut and
c_copy. External inputs are explicit: nodeUnderCursor is the result of
_index on the cursor row, fsExists the os.path.exists oracle, act the
per-pair filesystem action (fs.cut or fs.copy; some e means it raises e),
and rebuilt the flat index produced by the refresh after forward. -/
def _operation (state : State) (nodeUnderCursor : Option Node)
    (fsExists : FsPath → Bool) (act : FsPath → FsPath → Option PyErr)
    (rebuilt : List Node) : OpEffects :=
  match nodeUnderCursor with
  | none =>
    { state := state, fwdCall := none, completed := [], raised := none
      conflictsShown := [], noSelWarning := true, killed := [] }
  | some node =>
    if state.selection = [] then
      { state := state, fwdCall := none, completed := [], raised := none
        conflictsShown := [], noSelWarning := true, killed := [] }
    else
      let operations := state.selection.map fun src => (src, _find_dest src node)
      let pre_existing := operations.filter fun sd => fsExists sd.2
      if pre_existing = [] then
        let run := runActions act operations
        let paths : Finset FsPath :=
          (operations.map fun sd => sd.2).toFinset ∪
            (operations.map fun sd => dirname sd.1).toFinset
        let args : FwdArgs :=
          { indexArg := some (state.index ∪ paths), pathsArg := some paths
            selectionArg := none, showHiddenArg := none, followArg := none }
        let fin := pyReturnInFinally run.2 (forward state args rebuilt)
        { state := fin.2, fwdCall := some args, completed := run.1
          raised := fin.1, conflictsShown := [], noSelWarning := false
          killed := state.selection }
      else
        { state := state, fwdCall := none, completed := [], raised := none
          conflictsShown := pre_existing, noSelWarning := false, killed := [] }

/-- Embedding of commands.c_cut. -/
def c_cut (state : State) (nodeUnderCursor : Option Node)
    (fsExists : FsPath → Bool) (act : FsPath → FsPath → Option PyErr)
    (rebuilt : List Node) : OpEffects :=
  _operation state nodeUnderCursor fsExists act rebuilt

/-- Embedding of commands.c_copy. -/
def c_copy (state : State) (nodeUnderCursor : Option Node)
    (fsExists : FsPath → Bool) (act : FsPath → FsPath → Option PyErr)
    (rebuilt : List Node) : OpEffects :=
  _operation state nodeUnderCursor fsExists act rebuilt

/-- The enumeration of fs.unify used by c_delete, over the iteration
order of the selection: the members that are not a strict descendant of
another member. Modelled from the spec (fs.py is not under src/). -/
def unifyList (l : List FsPath) : List FsPath :=
  l.filter fun p => l.all fun q => !(is_parent q p)

/-- Everything observable about one call of commands.c_delete: the
returned state, the forward call when one was made, the argument of
fs.remove when it was invoked, the exception escaping to the caller, the
paths handed to kill_buffers, and whether any user-visible warning was
printed (c_delete contains no print call, so this is false on every
path). -/
structure DeleteEffects where
  state : State
  fwdCall : Option FwdArgs
  removeCalled : Option (List FsPath)
  raised : Option PyErr
  killed : List FsPath
  warned : Bool
  deriving DecidableEq

/-- Embedding of commands.c_delete. ans is the reply to the confirm
prompt (1 means Yes); removeErr tells whether fs.remove raises on the
given batch; rebuilt is the flat index produced by the refresh after
forward. -/
def c_delete (state : State) (nodeUnderCursor : Option Node) (ans : Int)
    (removeErr : List FsPath → Option PyErr) (rebuilt : List Node) :
    DeleteEffects :=
  let selection :=
    if state.selection ≠ [] then state.selection
    else
      match nodeUnderCursor with
      | some n => [n.path]
      | none => []
  if selection = [] then
    { state := state, fwdCall := none, removeCalled := none, raised := none
      killed := [], warned := false }
  else
    let unified := unifyList selection
    if ans = 1 then
      let paths : Finset FsPath := (unified.map dirname).toFinset
      let args : FwdArgs :=
        { indexArg := none, pathsArg := some paths, selectionArg := none
          showHiddenArg := none, followArg := none }
      let fin := pyReturnInFinally (removeErr unified) (forward state args rebuilt)
      { state := fin.2, fwdCall := some args, removeCalled := some unified
        raised := fin.1, killed := selection, warned := false }
    else
      { state := state, fwdCall := none, removeCalled := none, raised := none
        killed := [], warned := false }

/-- Everything observable about one call of commands.c_new: the returned
state, the forward call when one was made, the argument of fs.new when it
was invoked, the exception escaping to the caller, and the path named in
the already-exists refusal message when one was printed. -/
structure NewEffects where
  state : State
  fwdCall : Option FwdArgs
  createdCall : Option FsPath
  raised : Option PyErr
  existsError : Option FsPath
  deriving DecidableEq

/-- Embedding of commands.c_new. child is the typed input name, split
into its path segments; newErr tells whether fs.new raises on the given
path. -/
def c_new (state : State) (nodeUnderCursor : Option Node)
    (child : List String) (fsExists : FsPath → Bool)
    (newErr : FsPath → Option PyErr) (rebuilt : List Node) : NewEffects :=
  match nodeUnderCursor with
  | none =>
    { state := state, fwdCall := none, createdCall := none, raised := none
      existsError := none }
  | some node =>
    let parent := if is_dir node then node.path else dirname node.path
    let name := join parent child
    if fsExists name then
      { state := state, fwdCall := none, createdCall := none, raised := none
        existsError := some name }
    else
      let args : FwdArgs :=
        { indexArg := some (state.index ∪ (ancestors name).toFinset)
          pathsArg := some {parent}, selectionArg := none
          showHiddenArg := none, followArg := none }
      let fin := pyReturnInFinally (newErr name) (forward state args rebuilt)
      { state := fin.2, fwdCall := some args, createdCall := some name
        raised := fin.1, existsError := none }

/-- Everything observable about one call of commands.c_rename: the
returned state, the forward call when one was made, the (source,
destination) pair of the fs.rename invocation when one was made, the
exception escaping to the caller, the path named in the already-exists
refusal message when one was printed, and the paths handed to
kill_buffers. -/
structure RenameEffects where
  state : State
  fwdCall : Option FwdArgs
  renameCall : Option (FsPath × FsPath)
  raised : Option PyErr
  existsError : Option FsPath
  killed : List FsPath
  deriving DecidableEq

/-- Embedding of commands.c_rename. child is the typed input, the new
path relative to the display root, split into its segments; renameErr
tells whether fs.rename raises on the given pair. -/
def c_rename (state : State) (nodeUnderCursor : Option Node)
    (child : List String) (fsExists : FsPath → Bool)
    (renameErr : FsPath → FsPath → Option PyErr) (rebuilt : List Node) :
    RenameEffects :=
  match nodeUnderCursor with
  | none =>
    { state := state, fwdCall := none, renameCall := none, raised := none
      existsError := none, killed := [] }
  | some node =>
    let prev_name := node.path
    let parent := state.root
    let new_name := join parent child
    let new_parent := dirname new_name
    if fsExists new_name then
      { state := state, fwdCall := none, renameCall := none, raised := none
        existsError := some new_name, killed := [] }
    else
      let paths : Finset FsPath :=
        insert parent (insert new_parent (ancestors new_parent).toFinset)
      let args : FwdArgs :=
        { indexArg := some (state.index ∪ paths), pathsArg := some paths
          selectionArg := none, showHiddenArg := none, followArg := none }
      let fin :=
        pyReturnInFinally (renameErr prev_name new_name) (forward state args rebuilt)
      { state := fin.2, fwdCall := some args
        renameCall := some (prev_name, new_name), raised := fin.1
        existsError := none, killed := [prev_name] }

/-- Everything observable about one call of commands.c_collapse: the
returned state and the forward call when one was made. -/
structure CollapseEffects where
  state : State
  fwdCall : Option FwdArgs
  deriving DecidableEq

/-- Embedding of commands.c_collapse: when the node under the cursor is a
folder, drop from the expansion set every path of which the node is a
strict ancestor, and invalidate exactly those dropped paths. -/
def c_collapse (state : State) (nodeUnderCursor : Option Node)
    (rebuilt : List Node) : CollapseEffects :=
  match nodeUnderCursor with
  | none => { state := state, fwdCall := none }
  | some node =>
    if Mode.folder ∈ node.mode then
      let paths := state.index.filter fun i => is_parent node.path i
      let args : FwdArgs :=
        { indexArg := some (state.index \ paths), pathsArg := some paths
          selectionArg := none, showHiddenArg := none, followArg := none }
      { state := forward state args rebuilt, fwdCall := some args }
    else
      { state := state, fwdCall := none }

/-- Modelled from the spec: fs.unify (fs.py is not under src/) — the
subset of the given path set whose members are not a descendant of
another member. -/
def unify (S : Finset FsPath) : Finset FsPath :=
  S.filter fun p => ∀ q ∈ S, is_parent q p = false

/-- Concrete fixture: a snapshot rooted at the filesystem root with the
single selection /a/x. -/
def stateAX : State :=
  { root := [], index := ∅, selection := [["a", "x"]], show_hidden := false
    follow := false, lookup := [] }

/-- Concrete fixture: a snapshot rooted at the filesystem root with
nothing selected and nothing expanded. -/
def stateEmpty : State :=
  { root := [], index := ∅, selection := [], show_hidden := false
    follow := false, lookup := [] }

/-- Concrete fixture: a snapshot with expansion set containing /a, /a/b
and /c. -/
def stateIdx : State :=
  { root := [], index := {["a"], ["a", "b"], ["c"]}, selection := []
    show_hidden := false, follow := false, lookup := [] }

/-- Concrete fixture: a snapshot rooted at /r. -/
def stateR : State :=
  { root := ["r"], index := ∅, selection := [], show_hidden := false
    follow := false, lookup := [] }

/-- Concrete fixture: a folder node at /a. -/
def nodeA : Node := { path := ["a"], mode := [Mode.folder] }

/-- Concrete fixture: a folder node at /b. -/
def nodeB : Node := { path := ["b"], mode := [Mode.folder] }

/-- Concrete fixture: a file node at /r/a/b. -/
def nodeRAB : Node := { path := ["r", "a", "b"], mode := [Mode.file] }

/-- C1: a cut or copy with a non-empty selection and a node under the
cursor, some of whose computed destinations already exist, is entirely
refused — the input state is returned, no pair action runs, no forward
transition happens, and the conflict report lists every colliding
(source, destination) pair; the same already-exists refusal applies to
create and to rename, which likewise return the input state with no
filesystem call. -/
theorem c1_conflict_refusal :
    (∀ (state : State) (node : Node) (fsExists : FsPath → Bool)
        (act : FsPath → FsPath → Option PyErr) (rebuilt : List Node),
      state.selection ≠ [] →
      (state.selection.map fun src => (src, _find_dest src node)).filter
          (fun sd => fsExists sd.2) ≠ [] →
      _operation state (some node) fsExists act rebuilt =
        { state := state, fwdCall := none, completed := [], raised := none
          conflictsShown :=
            (state.selection.map fun src => (src, _find_dest src node)).filter
              fun sd => fsExists sd.2
          noSelWarning := false, killed := [] })
  ∧ (∀ (state : State) (node : Node) (child : List String)
        (fsExists : FsPath → Bool) (newErr : FsPath → Option PyErr)
        (rebuilt : List Node),
      fsExists (join (if is_dir node then node.path else dirname node.path)
          child) = true →
      c_new state (some node) child fsExists newErr rebuilt =
        { state := state, fwdCall := none, createdCall := none, raised := none
          existsError :=
            some (join (if is_dir node then node.path else dirname node.path)
              child) })
  ∧ (∀ (state : State) (node : Node) (child : List String)
        (fsExists : FsPath → Bool)
        (renameErr : FsPath → FsPath → Option PyErr) (rebuilt : List Node),
      fsExists (join state.root child) = true →
      c_rename state (some node) child fsExists renameErr rebuilt =
        { state := state, fwdCall := none, renameCall := none, raised := none
          existsError := some (join state.root child), killed := [] }) := by
  refine ⟨?_, ?_, ?_⟩
  · intro state node fsExists act rebuilt hsel hconf
    simp only [_operation]
    rw [if_neg hsel, if_neg hconf]
  · intro state node child fsExists newErr rebuilt hex
    simp only [c_new]
    rw [if_pos hex]
  · intro state node child fsExists renameErr rebuilt hex
    simp only [c_rename]
    rw [if_pos hex]

/-- Witness for C1 at concrete inputs: cutting /a/x into /b while /b/x
exists, creating b/c while /b/c exists, renaming to root-relative c while
/c exists. -/
theorem c1_witness :
    _operation stateAX (some nodeB) (fun p => p == ["b", "x"])
        (fun _ _ => none) [] =
      { state := stateAX, fwdCall := none, completed := [], raised := none
        conflictsShown := [(["a", "x"], ["b", "x"])], noSelWarning := false
        killed := [] }
  ∧ c_new stateAX (some nodeB) ["c"] (fun p => p == ["b", "c"])
        (fun _ => none) [] =
      { state := stateAX, fwdCall := none, createdCall := none, raised := none
        existsError := some ["b", "c"] }
  ∧ c_rename stateAX (some nodeB) ["c"] (fun p => p == ["c"])
        (fun _ _ => none) [] =
      { state := stateAX, fwdCall := none, renameCall := none, raised := none
        existsError := some ["c"], killed := [] } := by
  refine ⟨?_, ?_, ?_⟩
  · rw [c1_conflict_refusal.1 stateAX nodeB (fun p => p == ["b", "x"])
      (fun _ _ => none) [] (by decide) (by decide)]
    decide
  · rw [c1_conflict_refusal.2.1 stateAX nodeB ["c"] (fun p => p == ["b", "c"])
      (fun _ => none) [] (by decide)]
    decide
  · rw [c1_conflict_refusal.2.2 stateAX nodeB ["c"] (fun p => p == ["c"])
      (fun _ _ => none) [] (by decide)]
    decide

/-- C2, evaluated at the failing input: cutting /a/x into folder /b where
the pair action raises an IO error. The batch has an in-flight exception,
yet nothing escapes to the caller and the bookkeeping forward call still
happens — the return statement inside the finally block of _operation
discards the exception (Python semantics), so the error is swallowed
rather than re-raised. -/
theorem c2_error_swallowed :
    (runActions (fun _ _ => some PyErr.ioError)
        (stateAX.selection.map fun src => (src, _find_dest src nodeB))).2 =
      some PyErr.ioError
  ∧ (c_cut stateAX (some nodeB) (fun _ => false)
        (fun _ _ => some PyErr.ioError) []).raised = none
  ∧ (c_cut stateAX (some nodeB) (fun _ => false)
        (fun _ _ => some PyErr.ioError) []).fwdCall.isSome = true := by
  refine ⟨by decide, by decide, by decide⟩

/-- C6: whenever the confirm prompt is answered with anything other than
Yes, c_delete returns the input state unchanged — in particular the
selection and expansion-set fields are unchanged — and no filesystem
removal is invoked. -/
theorem c6_cancel_noop (state : State) (nodeUnderCursor : Option Node)
    (ans : Int) (removeErr : List FsPath → Option PyErr)
    (rebuilt : List Node) (h : ans ≠ 1) :
    c_delete state nodeUnderCursor ans removeErr rebuilt =
      { state := state, fwdCall := none, removeCalled := none, raised := none
        killed := [], warned := false } := by
  simp [c_delete, h]

/-- Witness for C6 at a concrete input: answering No (2) on a delete of
the selection /a/x. -/
theorem c6_witness :
    c_delete stateAX (some nodeB) 2 (fun _ => none) [] =
      { state := stateAX, fwdCall := none, removeCalled := none
        raised := none, killed := [], warned := false } :=
  c6_cancel_noop stateAX (some nodeB) 2 (fun _ => none) [] (by decide)

/-- C7 counterexample: deleting with an empty selection and no node under
the cursor prints no user-visible warning at all — c_delete contains no
print call — although it does leave the state unchanged and performs no
removal. -/
theorem c7_cex :
    (c_delete stateEmpty none 1 (fun _ => none) []).warned = false
  ∧ (c_delete stateEmpty none 1 (fun _ => none) []).state = stateEmpty
  ∧ (c_delete stateEmpty none 1 (fun _ => none) []).removeCalled = none := by
  refine ⟨by decide, by decide, by decide⟩

/-- C7 amended: with an empty selection and no node under the cursor, cut
and copy perform no filesystem action, return the input state unchanged
and report the nothing-selected warning; delete likewise performs no
filesystem action and returns the input state unchanged, but silently,
with no warning. -/
theorem c7_amended :
    (∀ (state : State) (fsExists : FsPath → Bool)
        (act : FsPath → FsPath → Option PyErr) (rebuilt : List Node),
      state.selection = [] →
      _operation state none fsExists act rebuilt =
        { state := state, fwdCall := none, completed := [], raised := none
          conflictsShown := [], noSelWarning := true, killed := [] })
  ∧ (∀ (state : State) (ans : Int) (removeErr : List FsPath → Option PyErr)
        (rebuilt : List Node),
      state.selection = [] →
      c_delete state none ans removeErr rebuilt =
        { state := state, fwdCall := none, removeCalled := none
          raised := none, killed := [], warned := false }) := by
  constructor
  · intro state fsExists act rebuilt _
    simp only [_operation]
  · intro state ans removeErr rebuilt hsel
    simp [c_delete, hsel]

/-- Witness for C7 amended, at the empty snapshot. -/
theorem c7_witness :
    _operation stateEmpty none (fun _ => false) (fun _ _ => none) [] =
      { state := stateEmpty, fwdCall := none, completed := [], raised := none
        conflictsShown := [], noSelWarning := true, killed := [] }
  ∧ c_delete stateEmpty none 2 (fun _ => none) [] =
      { state := stateEmpty, fwdCall := none, removeCalled := none
        raised := none, killed := [], warned := false } :=
  ⟨c7_amended.1 stateEmpty (fun _ => false) (fun _ _ => none) [] (by decide),
   c7_amended.2 stateEmpty 2 (fun _ => none) [] (by decide)⟩

/-- C8: unify keeps exactly the members of the set that are not a strict
descendant of another member; it is idempotent, and no element of its
result is a strict descendant of another element of the result. -/
theorem c8_unify_idempotent (S : Finset FsPath) :
    unify (unify S) = unify S
  ∧ (∀ p, p ∈ unify S ↔ (p ∈ S ∧ ∀ q ∈ S, is_parent q p = false))
  ∧ (∀ p ∈ unify S, ∀ q ∈ unify S, is_parent q p = false) := by
  have hmem : ∀ p, p ∈ unify S ↔ (p ∈ S ∧ ∀ q ∈ S, is_parent q p = false) := by
    intro p
    simp [unify]
  have hsub : ∀ p, p ∈ unify S → p ∈ S := fun p hp => ((hmem p).1 hp).1
  refine ⟨?_, hmem, ?_⟩
  · ext p
    constructor
    · intro hp
      exact (Finset.mem_filter.1 hp).1
    · intro hp
      refine Finset.mem_filter.2 ⟨hp, ?_⟩
      intro q hq
      exact ((hmem p).1 hp).2 q (hsub q hq)
  · intro p hp q hq
    exact ((hmem p).1 hp).2 q (hsub q hq)

/-- Witness for C8 at a concrete set, with the unified set evaluated. -/
theorem c8_witness :
    unify (unify {["a"], ["a", "b"], ["c"]}) =
      unify ({["a"], ["a", "b"], ["c"]} : Finset FsPath)
  ∧ unify ({["a"], ["a", "b"], ["c"]} : Finset FsPath) = {["a"], ["c"]} :=
  ⟨(c8_unify_idempotent {["a"], ["a", "b"], ["c"]}).1, by decide⟩

/-- C10: on a folder node under the cursor, collapse removes from the
expansion set exactly the strict descendants of the node path — the node
path itself stays expanded if it was — and the removed paths are exactly
the invalidation set passed to forward; selection and show_hidden are
unchanged. -/
theorem c10_collapse (state : State) (node : Node) (rebuilt : List Node)
    (h : Mode.folder ∈ node.mode) :
    (c_collapse state (some node) rebuilt).fwdCall =
      some { indexArg :=
               some (state.index \
                 state.index.filter fun i => is_parent node.path i)
             pathsArg :=
               some (state.index.filter fun i => is_parent node.path i)
             selectionArg := none, showHiddenArg := none, followArg := none }
  ∧ (∀ i : FsPath,
      i ∈ (c_collapse state (some node) rebuilt).state.index ↔
        (i ∈ state.index ∧ is_parent node.path i = false))
  ∧ (node.path ∈ (c_collapse state (some node) rebuilt).state.index ↔
      node.path ∈ state.index)
  ∧ (c_collapse state (some node) rebuilt).state.selection = state.selection
  ∧ (c_collapse state (some node) rebuilt).state.show_hidden =
      state.show_hidden := by
  have hmem : ∀ i : FsPath,
      i ∈ (c_collapse state (some node) rebuilt).state.index ↔
        (i ∈ state.index ∧ is_parent node.path i = false) := by
    intro i
    simp only [c_collapse, if_pos h, forward, Option.getD_some,
      Finset.mem_sdiff, Finset.mem_filter]
    constructor
    · rintro ⟨hi, hno⟩
      refine ⟨hi, ?_⟩
      cases hip : is_parent node.path i with
      | false => rfl
      | true => exact absurd ⟨hi, hip⟩ hno
    · rintro ⟨hi, hip⟩
      exact ⟨hi, fun hc => by simp [hip] at hc⟩
  refine ⟨?_, hmem, ?_, ?_, ?_⟩
  · simp only [c_collapse, if_pos h]
  · rw [hmem node.path]
    simp [is_parent_irrefl]
  · simp only [c_collapse, if_pos h, forward, Option.getD_none]
  · simp only [c_collapse, if_pos h, forward, Option.getD_none]

/-- Witness for C10 at a concrete input: collapsing the folder /a in a
snapshot with expansion set containing /a, /a/b and /c. -/
theorem c10_witness :
    (["a", "b"] ∈ (c_collapse stateIdx (some nodeA) []).state.index ↔
      ((["a", "b"] : FsPath) ∈ stateIdx.index ∧
        is_parent nodeA.path ["a", "b"] = false))
  ∧ (nodeA.path ∈ (c_collapse stateIdx (some nodeA) []).state.index ↔
      nodeA.path ∈ stateIdx.index)
  ∧ (c_collapse stateIdx (some nodeA) []).state.selection =
      stateIdx.selection
  ∧ (c_collapse stateIdx (some nodeA) []).state.index = {["a"], ["c"]} :=
  ⟨(c10_collapse stateIdx nodeA [] (by decide)).2.1 ["a", "b"],
   (c10_collapse stateIdx nodeA [] (by decide)).2.2.1,
   (c10_collapse stateIdx nodeA [] (by decide)).2.2.2.1,
   by decide⟩

/-- C3 counterexample: creating newdir/newfile under the folder node /a
(with no destination collision) passes the invalidation set {/a} to the
transition — the newly implied ancestor directory /a/newdir is NOT in the
invalidation set, contrary to the claim. -/
theorem c3_cex :
    ((c_new stateEmpty (some nodeA) ["newdir", "newfile"] (fun _ => false)
        (fun _ => none) []).fwdCall.bind FwdArgs.pathsArg) =
      some ({["a"]} : Finset FsPath)
  ∧ (["a", "newdir"] : FsPath) ∉ ({["a"]} : Finset FsPath) := by
  refine ⟨by decide, by decide⟩

/-- C3 amended: for every create that passes the existence pre-check, the
invalidation set passed to the transition is exactly the singleton of the
parent directory; the parent and every newly implied ancestor directory
of the created path are instead added to the expansion set (the expansion
argument is the old expansion set united with all ancestors of the
created path, and the parent is among those ancestors whenever the typed
name is non-empty), which is how the new entry is revealed. -/
theorem c3_amended (state : State) (node : Node) (child : List String)
    (fsExists : FsPath → Bool) (newErr : FsPath → Option PyErr)
    (rebuilt : List Node) (hchild : child ≠ [])
    (hex : fsExists (join (if is_dir node then node.path
        else dirname node.path) child) = false) :
    ((c_new state (some node) child fsExists newErr rebuilt).fwdCall.bind
        FwdArgs.pathsArg) =
      some {if is_dir node then node.path else dirname node.path}
  ∧ ((c_new state (some node) child fsExists newErr rebuilt).fwdCall.bind
        FwdArgs.indexArg) =
      some (state.index ∪
        (ancestors (join (if is_dir node then node.path
          else dirname node.path) child)).toFinset)
  ∧ (if is_dir node then node.path else dirname node.path) ∈
      ancestors (join (if is_dir node then node.path
        else dirname node.path) child) := by
  refine ⟨?_, ?_, ?_⟩
  · simp [c_new, hex, pyReturnInFinally]
  · simp [c_new, hex, pyReturnInFinally]
  · exact self_mem_ancestors_join _ child hchild

/-- Witness for C3 amended, creating newdir/newfile under the folder
node /a. -/
theorem c3_witness :
    ((c_new stateIdx (some nodeA) ["newdir", "newfile"] (fun _ => false)
        (fun _ => none) []).fwdCall.bind FwdArgs.pathsArg) =
      some ({["a"]} : Finset FsPath)
  ∧ (["a"] : FsPath) ∈ ancestors (join ["a"] ["newdir", "newfile"]) := by
  have h := c3_amended stateIdx nodeA ["newdir", "newfile"] (fun _ => false)
    (fun _ => none) [] (by decide) (by decide)
  refine ⟨?_, ?_⟩
  · rw [h.1]
    decide
  · have h3 := h.2.2
    simpa using h3

/-- C4 counterexample: cutting the selection {/a/x} into the folder /b
(no collision) passes the invalidation set {/b/x, /a} to the transition —
the destination path itself united with the source parent — which is not
the union {/a, /b} of source parents and destination parents the claim
describes. -/
theorem c4_cex :
    ((c_cut stateAX (some nodeB) (fun _ => false) (fun _ _ => none)
        []).fwdCall.bind FwdArgs.pathsArg) =
      some ({["b", "x"], ["a"]} : Finset FsPath)
  ∧ ({["b", "x"], ["a"]} : Finset FsPath) ≠
      {dirname ["a", "x"], dirname ["b", "x"]} := by
  refine ⟨by decide, by decide⟩

/-- C4 amended: for every cut or copy batch that passes the conflict
pre-check, the invalidation set passed to the transition equals the union
of the destination paths themselves and the source parents; for every
confirmed delete batch, it equals exactly the set of parents of the
unified source paths. -/
theorem c4_amended :
    (∀ (state : State) (node : Node) (fsExists : FsPath → Bool)
        (act : FsPath → FsPath → Option PyErr) (rebuilt : List Node),
      state.selection ≠ [] →
      (state.selection.map fun src => (src, _find_dest src node)).filter
          (fun sd => fsExists sd.2) = [] →
      ((_operation state (some node) fsExists act rebuilt).fwdCall.bind
          FwdArgs.pathsArg) =
        some ((state.selection.map fun src => _find_dest src node).toFinset ∪
          (state.selection.map dirname).toFinset))
  ∧ (∀ (state : State) (nodeUnderCursor : Option Node)
        (removeErr : List FsPath → Option PyErr) (rebuilt : List Node),
      state.selection ≠ [] →
      ((c_delete state nodeUnderCursor 1 removeErr rebuilt).fwdCall.bind
          FwdArgs.pathsArg) =
        some ((unifyList state.selection).map dirname).toFinset) := by
  constructor
  · intro state node fsExists act rebuilt hsel hconf
    simp only [_operation]
    rw [if_neg hsel, if_pos hconf]
    simp [Option.bind, List.map_map, Function.comp_def]
  · intro state nodeUnderCursor removeErr rebuilt hsel
    simp [c_delete, hsel]

/-- Witness for C4 amended at concrete inputs: cutting {/a/x} into /b,
and deleting the confirmed selection {/a/x}. -/
theorem c4_witness :
    ((_operation stateAX (some nodeB) (fun _ => false) (fun _ _ => none)
        []).fwdCall.bind FwdArgs.pathsArg) =
      some ((stateAX.selection.map fun src => _find_dest src nodeB).toFinset ∪
        (stateAX.selection.map dirname).toFinset)
  ∧ ((c_delete stateAX none 1 (fun _ => none) []).fwdCall.bind
        FwdArgs.pathsArg) =
      some ((unifyList stateAX.selection).map dirname).toFinset :=
  ⟨c4_amended.1 stateAX nodeB (fun _ => false) (fun _ _ => none) []
      (by decide) (by decide),
   c4_amended.2 stateAX none (fun _ => none) [] (by decide)⟩

/-- C5 counterexample: renaming the node /r/a/b of a snapshot rooted
at /r to the root-relative name c (no collision) passes the invalidation
set {/r, /} to the transition — it does not contain the old parent
directory /r/a, contrary to the claim. -/
theorem c5_cex :
    ((c_rename stateR (some nodeRAB) ["c"] (fun _ => false)
        (fun _ _ => none) []).fwdCall.bind FwdArgs.pathsArg) =
      some ({["r"], ([] : FsPath)} : Finset FsPath)
  ∧ dirname (["r", "a", "b"] : FsPath) ∉
      ({["r"], ([] : FsPath)} : Finset FsPath) := by
  refine ⟨by decide, by decide⟩

/-- C5 amended: for every rename that passes the existence pre-check, the
invalidation set passed to the transition is the display root together
with the new parent directory and all of its ancestors — it contains the
new parent (dirname of the destination) but not in general the old
parent — and the buffer-synchronization collaborator is invoked with
exactly the old path. -/
theorem c5_amended (state : State) (node : Node) (child : List String)
    (fsExists : FsPath → Bool)
    (renameErr : FsPath → FsPath → Option PyErr) (rebuilt : List Node)
    (hex : fsExists (join state.root child) = false) :
    ((c_rename state (some node) child fsExists renameErr
        rebuilt).fwdCall.bind FwdArgs.pathsArg) =
      some (insert state.root (insert (dirname (join state.root child))
        (ancestors (dirname (join state.root child))).toFinset))
  ∧ dirname (join state.root child) ∈
      insert state.root (insert (dirname (join state.root child))
        (ancestors (dirname (join state.root child))).toFinset)
  ∧ (c_rename state (some node) child fsExists renameErr rebuilt).killed =
      [node.path] := by
  refine ⟨?_, ?_, ?_⟩
  · simp [c_rename, hex, pyReturnInFinally]
  · exact Finset.mem_insert.2 (Or.inr (Finset.mem_insert_self _ _))
  · simp [c_rename, hex, pyReturnInFinally]

/-- Witness for C5 amended, renaming /r/a/b to the root-relative name c
in a snapshot rooted at /r. -/
theorem c5_witness :
    ((c_rename stateR (some nodeRAB) ["c"] (fun _ => false)
        (fun _ _ => none) []).fwdCall.bind FwdArgs.pathsArg) =
      some (insert stateR.root (insert (dirname (join stateR.root ["c"]))
        (ancestors (dirname (join stateR.root ["c"]))).toFinset))
  ∧ (c_rename stateR (some nodeRAB) ["c"] (fun _ => false)
        (fun _ _ => none) []).killed = [nodeRAB.path] :=
  ⟨(c5_amended stateR nodeRAB ["c"] (fun _ => false) (fun _ _ => none) []
      (by decide)).1,
   (c5_amended stateR nodeRAB ["c"] (fun _ => false) (fun _ _ => none) []
      (by decide)).2.2⟩

/-- Collecting the in-range lookups of the consecutive rows a, a+1, ...,
a+n-1 yields exactly the corresponding contiguous slice of the list. -/
theorem filterMap_lookup_range {α : Type} (l : List α) :
    ∀ (n a : Nat),
      ((List.range n).filterMap fun i => l[a + i]?) = (l.take (a + n)).drop a := by
  intro n
  induction n with
  | zero =>
    intro a
    simp only [List.range_zero, List.filterMap_nil, Nat.add_zero]
    symm
    apply List.drop_eq_nil_of_le
    rw [List.length_take]
    exact Nat.min_le_left _ _
  | succ n ih =>
    intro a
    rw [List.range_succ_eq_map, List.filterMap_cons, List.filterMap_map]
    have hfun : ((fun i => l[a + i]?) ∘ Nat.succ) = fun i => l[(a + 1) + i]? := by
      funext i
      simp only [Function.comp_apply]
      congr 1
      omega
    rw [hfun, ih (a + 1)]
    have harith : a + (n + 1) = (a + 1) + n := by omega
    rw [harith]
    cases hget : l[a + 0]? with
    | none =>
      have hlen : l.length ≤ a := by
        have := List.getElem?_eq_none_iff.1 hget
        omega
      have h1 : (l.take ((a + 1) + n)).drop (a + 1) = [] := by
        apply List.drop_eq_nil_of_le
        rw [List.length_take]
        have := Nat.min_le_right ((a + 1) + n) l.length
        omega
      have h2 : (l.take ((a + 1) + n)).drop a = [] := by
        apply List.drop_eq_nil_of_le
        rw [List.length_take]
        have := Nat.min_le_right ((a + 1) + n) l.length
        omega
      rw [h1, h2]
    | some v =>
      have hget' : l[a]? = some v := hget
      obtain ⟨hlt, hv⟩ := List.getElem?_eq_some_iff.1 hget'
      have hltT : a < (l.take ((a + 1) + n)).length := by
        rw [List.length_take]
        omega
      rw [List.drop_eq_getElem_cons hltT]
      have ht : (l.take ((a + 1) + n))[a] = v := by
        rw [List.getElem_take]
        exact hv
      rw [ht]

/-- C9: the row lookup returns none exactly when the row is out of range
and the row element of the flat index otherwise, and the visual-range
query of _indices collects exactly the resolvable rows of the mark
interval, in row order — it equals the contiguous slice of the flat index
between the marks, silently dropping the out-of-range rows. -/
theorem c9_row_index :
    (∀ (s : State) (r : Int),
      r < 0 ∨ (s.lookup.length : Int) ≤ r → index s r = none)
  ∧ (∀ (s : State) (k : Nat) (h : k < s.lookup.length),
      index s (k : Int) = some (s.lookup[k]))
  ∧ (∀ (s : State) (r1 r2 : Nat), 1 ≤ r1 →
      _indices s true (r1 : Int) (r2 : Int) 0 =
        (s.lookup.take r2).drop (r1 - 1)) := by
  have hidx : ∀ (s : State) (k : Nat), index s (k : Int) = s.lookup[k]? := by
    intro s k
    rw [index, if_neg (by omega)]
    simp
  refine ⟨?_, ?_, ?_⟩
  · intro s r hr
    rcases hr with hr | hr
    · rw [index, if_pos hr]
    · rw [index, if_neg (by omega)]
      apply List.getElem?_eq_none
      omega
  · intro s k h
    rw [hidx s k]
    exact List.getElem?_eq_getElem h
  · intro s r1 r2 h1
    have hn : ((r2 : Int) - ((r1 : Int) - 1)).toNat = r2 - (r1 - 1) := by
      omega
    have hfun2 : (fun i : Nat => ((r1 : Int) - 1 + (i : Int))) =
        fun i : Nat => (((r1 - 1) + i : Nat) : Int) := by
      funext i
      omega
    have hlist : pyRange ((r1 : Int) - 1) (r2 : Int) =
        (List.range (r2 - (r1 - 1))).map
          fun i : Nat => (((r1 - 1) + i : Nat) : Int) := by
      simp only [pyRange, hn, hfun2]
    have hcomp : ∀ i : Nat,
        index s (((r1 - 1) + i : Nat) : Int) = s.lookup[(r1 - 1) + i]? :=
      fun i => hidx s ((r1 - 1) + i)
    calc _indices s true (r1 : Int) (r2 : Int) 0
        = (pyRange ((r1 : Int) - 1) (r2 : Int)).filterMap
            fun r => index s r := by
          simp [_indices]
      _ = ((List.range (r2 - (r1 - 1))).map
            (fun i : Nat => (((r1 - 1) + i : Nat) : Int))).filterMap
            (fun r => index s r) := by
          rw [hlist]
      _ = (List.range (r2 - (r1 - 1))).filterMap
            (fun i : Nat => index s (((r1 - 1) + i : Nat) : Int)) := by
          rw [List.filterMap_map]
          rfl
      _ = (List.range (r2 - (r1 - 1))).filterMap
            (fun i : Nat => s.lookup[(r1 - 1) + i]?) := by
          simp only [hcomp]
      _ = (s.lookup.take ((r1 - 1) + (r2 - (r1 - 1)))).drop (r1 - 1) :=
          filterMap_lookup_range s.lookup (r2 - (r1 - 1)) (r1 - 1)
      _ = (s.lookup.take r2).drop (r1 - 1) := by
          by_cases hle : r1 - 1 ≤ r2
          · have heq : (r1 - 1) + (r2 - (r1 - 1)) = r2 := by omega
            rw [heq]
          · have hz : r2 - (r1 - 1) = 0 := by omega
            rw [hz, Nat.add_zero]
            have h1' : (s.lookup.take (r1 - 1)).drop (r1 - 1) = [] := by
              apply List.drop_eq_nil_of_le
              rw [List.length_take]
              exact Nat.min_le_left _ _
            have h2' : (s.lookup.take r2).drop (r1 - 1) = [] := by
              apply List.drop_eq_nil_of_le
              rw [List.length_take]
              have := Nat.min_le_left r2 s.lookup.length
              omega
            rw [h1', h2']

/-- Concrete fixture: a snapshot whose flat index has three rows. -/
def stateRows : State :=
  { root := [], index := ∅, selection := [], show_hidden := false
    follow := false
    lookup := [{ path := ["p"], mode := [Mode.file] },
               { path := ["q"], mode := [Mode.file] },
               { path := ["s"], mode := [Mode.folder] }] }

/-- Witness for C9 at concrete inputs: row 5 of a three-row flat index is
out of range, row 1 resolves, and the visual range over marks 2..3 yields
the slice of rows 1 and 2. -/
theorem c9_witness :
    index stateRows 5 = none
  ∧ index stateRows (1 : Nat) =
      some { path := ["q"], mode := [Mode.file] }
  ∧ _indices stateRows true (2 : Nat) (3 : Nat) 0 =
      (stateRows.lookup.take 3).drop (2 - 1) := by
  refine ⟨c9_row_index.1 stateRows 5 (by decide), ?_, ?_⟩
  · rw [c9_row_index.2.1 stateRows 1 (by decide)]
    decide
  · exact c9_row_index.2.2 stateRows 2 3 (by decide)

end FastFM
